import Mathlib

/-!
Shallow embedding of the core logic of the file-line-counter editor
extension: the line counter (lineCounter.ts), the deny/allow glob
matcher, the workspace scan and snapshot aggregation with its cache
(FileTreeProvider.ts), and the decoration provider's memoized line
counter and badge formatter (LineCountDecorationProvider.ts).

Modelling conventions:
- the filesystem is a directory tree of entries; a file's content is an
  Option String where none models fs.readFileSync throwing, and a
  directory carries a readability flag where false models
  fs.readdirSync throwing;
- paths are workspace-relative strings with forward-slash separators,
  so path.join along the walk is slash concatenation and path.relative
  at the workspace root is the identity;
- JavaScript strings are modelled through their character lists; the
  handful of string primitives the source uses (split on a single
  character, trim, startsWith, endsWith, slice, global replace) are
  given as explicit list programs so every definition evaluates by
  kernel reduction;
- stateful caches are explicit state values threaded through the
  functions that use them, with an extra result component counting the
  fs.readFileSync calls performed, so that claims about memoization and
  recomputation are statable.
-/

namespace FileLineCounter

/-- Splits a character list on a separator character, mirroring
JavaScript String.prototype.split with a one-character separator: the
result has exactly one more segment than there are separators, and the
empty string yields the single segment list. -/
def splitOnChar (sep : Char) : List Char → List (List Char)
  | [] => [[]]
  | c :: cs =>
    if c = sep then [] :: splitOnChar sep cs
    else
      match splitOnChar sep cs with
      | [] => [[c]]
      | l :: ls => (c :: l) :: ls

/-- Embeds content.split('\n').length, the counting step shared by
lineCounter.ts and LineCountDecorationProvider.getLineCount. -/
def countLinesStr (s : String) : Nat := (splitOnChar '\n' s.data).length

/-- Embeds countLines from lineCounter.ts: the filesystem is the map fs
from path to optional content; a none result models a thrown read
error, which the catch branch turns into the count 0. The embedding is
a total function, mirroring the catch-all that prevents any exception
from propagating. -/
def countLines (fs : String → Option String) (p : String) : Nat :=
  match fs p with
  | some content => countLinesStr content
  | none => 0

/-- Embeds String.prototype.startsWith. -/
def strStartsWith (s pre : String) : Bool := pre.data.isPrefixOf s.data

/-- Embeds String.prototype.endsWith. -/
def strEndsWith (s suf : String) : Bool := suf.data.isSuffixOf s.data

/-- Embeds String.prototype.slice(n) for a non-negative start. -/
def strDrop (s : String) (n : Nat) : String := String.mk (s.data.drop n)

/-- Embeds String.prototype.slice(0, -n): all but the last n characters. -/
def strDropRight (s : String) (n : Nat) : String :=
  String.mk (s.data.take (s.data.length - n))

/-- Embeds String.prototype.includes for a one-character needle. -/
def strContains (s : String) (c : Char) : Bool := s.data.contains c

/-- Embeds String.prototype.trim: whitespace stripped from both ends. -/
def trimStr (s : String) : String :=
  String.mk (((s.data.dropWhile Char.isWhitespace).reverse.dropWhile
    Char.isWhitespace).reverse)

/-- Embeds path.basename on a slash-separated relative path: its last
segment. -/
def basename (p : String) : String :=
  String.mk ((splitOnChar '/' p.data).getLastD [])

/-- Embeds path.extname applied to a plain file name: the suffix from
the final dot, or the empty string when there is no dot or the only dot
is the leading character. -/
def extname (name : String) : String :=
  match (name.data.enum.filter (fun q => q.2 == '.')).getLast? with
  | none => ""
  | some (0, _) => ""
  | some (i, _) => String.mk (name.data.drop i)

/-- Embeds String.prototype.toLowerCase. -/
def toLowerStr (s : String) : String := String.mk (s.data.map Char.toLower)

/-- The code-file extension whitelist of getAllCodeFiles
(FileTreeProvider.ts line 601). -/
def codeExtensions : List String :=
  [".ts", ".js", ".tsx", ".jsx", ".py", ".java", ".c", ".cpp", ".h",
   ".cs", ".go", ".rb", ".php", ".swift", ".kt", ".rs", ".vue",
   ".svelte", ".html", ".css", ".scss", ".less", ".json", ".yaml",
   ".yml", ".xml", ".md", ".txt"]

/-- Scanning loop of JavaScript String.prototype.replace with a global
pattern: at each position, if the pattern matches there, emit the
replacement and skip past the match, otherwise keep the character and
advance. The fuel argument bounds the recursion and is always started
at the length of the scanned text, which suffices because every step
consumes at least one character; the source never replaces an empty
pattern, and an empty pattern here is treated as never matching. -/
def replaceAllFuel (pat rep : List Char) : Nat → List Char → List Char
  | _, [] => []
  | 0, s => s
  | fuel + 1, c :: cs =>
    if !pat.isEmpty && pat.isPrefixOf (c :: cs) then
      rep ++ replaceAllFuel pat rep fuel (List.drop (pat.length - 1) cs)
    else
      c :: replaceAllFuel pat rep fuel cs

/-- Global replace of one literal pattern by a replacement. -/
def replaceAll (pat rep s : List Char) : List Char :=
  replaceAllFuel pat rep s.length s

/-- Atoms of the small regular-expression dialect that the glob
translations in FileTreeProvider.ts emit: literal characters (possibly
behind a backslash escape), the any-character dot, and the negated
character class matching anything but a slash. -/
inductive RAtom where
  | lit (c : Char)
  | anyChar
  | notSlash
deriving DecidableEq

/-- Single-character test for one atom. -/
def rmatchAtom : RAtom → Char → Bool
  | .lit c, d => c == d
  | .anyChar, _ => true
  | .notSlash, d => d != '/'

/-- Parses the regex source text produced by the glob translations into
a sequence of atoms, each flagged when a Kleene star follows it. Only
the constructs those translations emit are recognised; any other
character stands for itself. -/
def parseRegex : List Char → List (RAtom × Bool)
  | [] => []
  | '\\' :: c :: '*' :: rest => (.lit c, true) :: parseRegex rest
  | '\\' :: c :: rest => (.lit c, false) :: parseRegex rest
  | '[' :: '^' :: '/' :: ']' :: '*' :: rest => (.notSlash, true) :: parseRegex rest
  | '[' :: '^' :: '/' :: ']' :: rest => (.notSlash, false) :: parseRegex rest
  | '.' :: '*' :: rest => (.anyChar, true) :: parseRegex rest
  | '.' :: rest => (.anyChar, false) :: parseRegex rest
  | c :: '*' :: rest => (.lit c, true) :: parseRegex rest
  | c :: rest => (.lit c, false) :: parseRegex rest

/-- The suffixes of a text reachable by letting a starred atom consume
zero or more leading characters. -/
def starSuffixes (a : RAtom) : List Char → List (List Char)
  | [] => [[]]
  | c :: cs => (c :: cs) :: (if rmatchAtom a c then starSuffixes a cs else [])

/-- Full-match test of a parsed regex against a text: the translations
always anchor with a leading caret and trailing dollar, so
RegExp.prototype.test is a whole-string match; a starred atom matches
when some reachable suffix lets the rest match. -/
def rmatch : List (RAtom × Bool) → List Char → Bool
  | [], s => s.isEmpty
  | (a, false) :: rs, s =>
    match s with
    | [] => false
    | c :: cs => rmatchAtom a c && rmatch rs cs
  | (a, true) :: rs, s => (starSuffixes a s).any (fun s2 => rmatch rs s2)

/-- Embeds matchPattern (FileTreeProvider.ts lines 269-279): dots are
escaped, stars become dot-star, and the result is tested anchored; a
starless pattern is compared for equality. -/
def matchPattern (str pattern : String) : Bool :=
  if strContains pattern '*' then
    let regexPattern := replaceAll ['*'] ['.', '*']
      (replaceAll ['.'] ['\\', '.'] pattern.data)
    rmatch (parseRegex regexPattern) str.data
  else str == pattern

/-- The placeholder the translation temporarily substitutes for a
double star; the braces are written as character escapes. -/
def doubleStarToken : List Char := "\x7b\x7bDOUBLESTAR\x7d\x7d".data

/-- Embeds the regex translation of isIgnored (FileTreeProvider.ts
lines 252-257). The dot-escaping step runs after double stars were
rewritten to dot-star, so those dots get escaped as well, exactly as in
the source. -/
def translateGlob (cleanPattern : String) : List Char :=
  replaceAll ['?'] ['.']
    (replaceAll ['.'] ['\\', '.']
      (replaceAll doubleStarToken ['.', '*']
        (replaceAll ['*'] "[^/]*".data
          (replaceAll ['*', '*'] doubleStarToken cleanPattern.data))))

/-- Embeds the pattern cleanup of both matchers: one leading and one
trailing slash are removed. -/
def stripSlashes (p : String) : String :=
  let p1 := if strStartsWith p "/" then strDrop p 1 else p
  if strEndsWith p1 "/" then strDropRight p1 1 else p1

/-- Embeds the per-pattern body of isIgnored (FileTreeProvider.ts lines
201-263): exact match, directory containment, double-star forms
(including per-segment matching), extension suffix, trailing
directory-wildcard, and the general starred glob via regex
translation. -/
def ignoredByPattern (relativePath fileName pattern : String) : Bool :=
  let cleanPattern := stripSlashes pattern
  (relativePath == cleanPattern || fileName == cleanPattern)
  || (relativePath == cleanPattern
      || strStartsWith relativePath (cleanPattern ++ "/"))
  || (strStartsWith cleanPattern "**/" &&
      (let subPattern := strDrop cleanPattern 3
       matchPattern fileName subPattern
       || matchPattern relativePath subPattern
       || (splitOnChar '/' relativePath.data).any
            (fun part => matchPattern (String.mk part) subPattern)))
  || (strStartsWith cleanPattern "*."
      && strEndsWith fileName (strDrop cleanPattern 1))
  || (strEndsWith cleanPattern "/**" &&
      (let dirPattern := strDropRight cleanPattern 3
       relativePath == dirPattern
       || strStartsWith relativePath (dirPattern ++ "/")))
  || (strContains cleanPattern '*' &&
      (let regexPattern := translateGlob cleanPattern
       rmatch (parseRegex regexPattern) relativePath.data
       || rmatch (parseRegex regexPattern) fileName.data))

/-- Embeds isIgnored (FileTreeProvider.ts lines 197-267): the loop with
its early returns is an any over the deny patterns; relativePath is
already workspace-relative with forward slashes, and fileName is its
basename. -/
def isIgnored (ignorePatterns : List String) (relativePath : String) : Bool :=
  let fileName := basename relativePath
  ignorePatterns.any (fun pattern => ignoredByPattern relativePath fileName pattern)

/-- Embeds the per-pattern body of isIncluded (FileTreeProvider.ts
lines 161-192), the same rule forms minus per-segment double-star
matching and the general regex case. -/
def includedByPattern (relativePath fileName pattern : String) : Bool :=
  let cleanPattern := stripSlashes pattern
  (relativePath == cleanPattern || fileName == cleanPattern)
  || strStartsWith relativePath (cleanPattern ++ "/")
  || (strStartsWith cleanPattern "**/" &&
      (let subPattern := strDrop cleanPattern 3
       matchPattern fileName subPattern
       || matchPattern relativePath subPattern))
  || (strStartsWith cleanPattern "*."
      && strEndsWith fileName (strDrop cleanPattern 1))
  || (strEndsWith cleanPattern "/**" &&
      (let dirPattern := strDropRight cleanPattern 3
       relativePath == dirPattern
       || strStartsWith relativePath (dirPattern ++ "/")))

/-- Embeds isIncluded (FileTreeProvider.ts lines 151-195): default
allow when the whitelist is off, otherwise the path must match at least
one allow pattern. -/
def isIncluded (useIncludeFile : Bool) (includePatterns : List String)
    (relativePath : String) : Bool :=
  if !useIncludeFile then true
  else
    let fileName := basename relativePath
    includePatterns.any (fun pattern => includedByPattern relativePath fileName pattern)

/-- Embeds one file's contribution in loadIgnorePatterns
(FileTreeProvider.ts lines 120-145): a missing or unreadable pattern
file (none) contributes nothing; otherwise the content is split on
newlines, each line trimmed, and blank or hash-prefixed lines are
dropped. -/
def parsePatternFile : Option String → List String
  | none => []
  | some content =>
    ((splitOnChar '\n' content.data).map (fun l => trimStr (String.mk l))).filter
      (fun l => !(l == "") && !strStartsWith l "#")

/-- Embeds the accumulation loop of loadIgnorePatterns: the parsed
patterns of each configured file are appended in order. -/
def loadPatternFiles (files : List (Option String)) : List String :=
  files.foldl (fun acc f => acc ++ parsePatternFile f) []

/-- Embeds getSummaryThreshold (FileTreeProvider.ts lines 517-520): a
missing or zero configured value falls back to 1000 through the or-else
on a falsy number. -/
def getSummaryThreshold (cfg : Option Nat) : Nat :=
  match cfg with
  | some n => if n = 0 then 1000 else n
  | none => 1000

/-- The configuration and loaded pattern state the scan reads:
ignorePatterns and includePatterns as loaded by loadIgnorePatterns,
the whitelist toggle, and the raw summaryThreshold setting. -/
structure Env where
  ignorePatterns : List String
  includePatterns : List String
  useIncludeFile : Bool
  summaryThresholdConfig : Option Nat

/-- A directory tree entry. A file content of none models
fs.readFileSync throwing for that file; a directory readability flag of
false models fs.readdirSync throwing for that directory. -/
inductive FSEntry where
  | file (name : String) (content : Option String)
  | dir (name : String) (readable : Bool) (entries : List FSEntry)

/-- Relative path concatenation: the scan starts at the workspace root
with the empty relative prefix, so path.join reduces to slash
concatenation on relative paths. -/
def joinPath (pre name : String) : String :=
  if pre == "" then name else pre ++ "/" ++ name

mutual
/-- Looks a segmented path up in one entry; some content is a
successful read, none a missing file or a failed read. -/
def readFileEntry : FSEntry → List String → Option String
  | .file name c, [seg] => if name == seg then c else none
  | .dir name _ es, seg :: rest =>
    if name == seg && !rest.isEmpty then readFileList es rest else none
  | _, _ => none
/-- Looks a segmented path up in a directory listing, first entry with
a hit wins. -/
def readFileList : List FSEntry → List String → Option String
  | [], _ => none
  | e :: es, segs =>
    match readFileEntry e segs with
    | some c => some c
    | none => readFileList es segs
end

/-- The filesystem map a directory tree presents to countLines. -/
def treeFS (root : List FSEntry) : String → Option String :=
  fun p => readFileList root ((splitOnChar '/' p.data).map String.mk)

mutual
/-- Embeds the body of scanDir inside getAllCodeFiles
(FileTreeProvider.ts lines 579-610) for one directory entry: the ignore
check runs first and short-circuits everything after it; then, for
files only, the whitelist check; a surviving file is kept when its
lowercased extension is whitelisted, and a surviving readable
directory is recursed into. An unreadable directory contributes
nothing, as its readdirSync error is swallowed. -/
def scanEntry (env : Env) (pre : String) : FSEntry → List String
  | .file name _ =>
    let fullPath := joinPath pre name
    if isIgnored env.ignorePatterns fullPath then []
    else if env.useIncludeFile
        && !isIncluded env.useIncludeFile env.includePatterns fullPath then []
    else if codeExtensions.contains (toLowerStr (extname name)) then [fullPath]
    else []
  | .dir name readable entries =>
    let fullPath := joinPath pre name
    if isIgnored env.ignorePatterns fullPath then []
    else if readable then scanEntries env fullPath entries
    else []
/-- Embeds the entry loop of scanDir over one directory listing. -/
def scanEntries (env : Env) (pre : String) : List FSEntry → List String
  | [] => []
  | e :: es => scanEntry env pre e ++ scanEntries env pre es
end

/-- Embeds getAllCodeFiles (FileTreeProvider.ts lines 575-614),
producing workspace-relative paths of the eligible code files. -/
def getAllCodeFiles (env : Env) (root : List FSEntry) : List String :=
  scanEntries env "" root

/-- Embeds the FileInfo record (FileTreeProvider.ts lines 6-10). -/
structure FileInfo where
  path : String
  name : String
  lineCount : Nat
deriving DecidableEq

/-- Embeds the WorkspaceStats record (FileTreeProvider.ts lines 12-17). -/
structure WorkspaceStats where
  totalFiles : Nat
  totalLines : Nat
  averageLines : Nat
  largeFiles : List FileInfo
deriving DecidableEq

/-- Inserts a record into a list already sorted by descending line
count, going after any record of equal count, which matches the stable
Array.prototype.sort under the comparator b.lineCount - a.lineCount. -/
def insertDesc (f : FileInfo) : List FileInfo → List FileInfo
  | [] => [f]
  | g :: gs => if g.lineCount > f.lineCount then g :: insertDesc f gs else f :: g :: gs

/-- Stable sort by descending lineCount. -/
def sortByCountDesc : List FileInfo → List FileInfo
  | [] => []
  | f :: fs => insertDesc f (sortByCountDesc fs)

/-- Math.round on the exact rational a / b for b > 0: the floor of
a / b + 1/2, with the half-way case rounding up exactly as JavaScript
rounds. -/
def jsRound (a b : Nat) : Nat := (2 * a + b) / (2 * b)

/-- The record list accumulated by the counting loop of
getWorkspaceStats (FileTreeProvider.ts lines 551-559): one record per
scanned path, with its basename and its countLines result. -/
def filesWithCounts (env : Env) (root : List FSEntry) : List FileInfo :=
  (getAllCodeFiles env root).map
    (fun p => { path := p, name := basename p, lineCount := countLines (treeFS root) p })

/-- Embeds the snapshot computation of getWorkspaceStats
(FileTreeProvider.ts lines 546-572): totals over the scanned records,
the guarded rounded average, and the large files filtered by the
configured threshold and sorted by descending line count. -/
def buildSnapshot (env : Env) (root : List FSEntry) : WorkspaceStats :=
  let files := filesWithCounts env root
  let threshold := getSummaryThreshold env.summaryThresholdConfig
  let totalLines := (files.map (fun f => f.lineCount)).foldl (· + ·) 0
  { totalFiles := files.length
    totalLines := totalLines
    averageLines := if files.length > 0 then jsRound totalLines files.length else 0
    largeFiles := sortByCountDesc (files.filter (fun f => decide (threshold ≤ f.lineCount))) }

/-- The provider state relevant to snapshot caching: the cachedStats
field of FileTreeProvider. -/
structure ProviderState where
  cachedStats : Option WorkspaceStats
deriving DecidableEq

/-- Embeds refresh (FileTreeProvider.ts lines 65-69): the cached
snapshot is dropped wholesale. -/
def refresh (_st : ProviderState) : ProviderState := { cachedStats := none }

/-- Embeds getWorkspaceStats (FileTreeProvider.ts lines 541-573) as a
state transformer, with a read counter as third result component: a
cache hit returns the stored snapshot unchanged with zero file reads; a
miss builds the snapshot, reading every scanned file once through
countLines, and stores it. -/
def getWorkspaceStats (env : Env) (root : List FSEntry) (st : ProviderState) :
    WorkspaceStats × ProviderState × Nat :=
  match st.cachedStats with
  | some s => (s, st, 0)
  | none =>
    let stats := buildSnapshot env root
    (stats, { cachedStats := some stats }, (getAllCodeFiles env root).length)

/-- Embeds getLineCount (LineCountDecorationProvider.ts lines 57-71)
with the cache as an association list (newest entry first, matching
Map.prototype.set overwriting) and a read counter as third result
component: a cache hit performs no read; a miss performs one
fs.readFileSync call, and only a successful read is stored, because the
catch branch returns 0 without touching the cache. -/
def getLineCount (fs : String → Option String) (cache : List (String × Nat))
    (p : String) : Nat × List (String × Nat) × Nat :=
  match cache.lookup p with
  | some n => (n, cache, 0)
  | none =>
    match fs p with
    | some content =>
      let n := countLinesStr content
      (n, (p, n) :: cache, 1)
    | none => (0, cache, 1)

/-- countLines from lineCounter.ts with a read counter: every
invocation enters the try block and performs exactly one
fs.readFileSync call, successful or not; there is no cache in that
module. -/
def countLinesInstr (fs : String → Option String) (p : String) : Nat × Nat :=
  match fs p with
  | some content => (countLinesStr content, 1)
  | none => (0, 1)

/-- Embeds formatBadge (LineCountDecorationProvider.ts lines 73-89). -/
def formatBadge (count : Nat) : String :=
  if count < 100 then toString count
  else if count < 1000 then toString (count / 100) ++ "H"
  else if count < 10000 then toString (count / 1000) ++ "K"
  else if count < 100000 then toString (count / 1000) ++ "K"
  else toString (count / 1000000) ++ "M"

/-- Content consisting of k newline characters, hence k + 1 newline
separated segments. -/
def nlString (k : Nat) : String := String.mk (List.replicate k '\n')

/-- Concrete environment shared by the example theorems: no patterns,
whitelist off, summary threshold configured to 500. -/
def exampleEnv : Env :=
  { ignorePatterns := [], includePatterns := [], useIncludeFile := false,
    summaryThresholdConfig := some 500 }

/-- Concrete workspace shared by the example theorems: three code files
of 10, 600 and 1200 lines. -/
def exampleRoot : List FSEntry :=
  [FSEntry.file "a.ts" (some (nlString 9)),
   FSEntry.file "b.ts" (some (nlString 599)),
   FSEntry.file "c.ts" (some (nlString 1199))]

end FileLineCounter

namespace FileLineCounter

mutual
/-- Every path produced by scanning one entry passed its own ignore
check, because that check runs first and short-circuits the rest of the
loop body. -/
theorem not_ignored_of_mem_scanEntry (env : Env) (pre : String) (e : FSEntry)
    (p : String) (hp : p ∈ scanEntry env pre e) :
    isIgnored env.ignorePatterns p = false := by
  cases e with
  | file name c =>
    simp only [scanEntry] at hp
    split at hp
    · exact absurd hp (List.not_mem_nil p)
    · next hig =>
      split at hp
      · exact absurd hp (List.not_mem_nil p)
      · split at hp
        · rw [List.mem_singleton] at hp
          subst hp
          exact Bool.not_eq_true _ |>.mp hig
        · exact absurd hp (List.not_mem_nil p)
  | dir name readable entries =>
    simp only [scanEntry] at hp
    split at hp
    · exact absurd hp (List.not_mem_nil p)
    · split at hp
      · exact not_ignored_of_mem_scanEntries env (joinPath pre name) entries p hp
      · exact absurd hp (List.not_mem_nil p)
/-- Every path produced by scanning a directory listing passed its own
ignore check. -/
theorem not_ignored_of_mem_scanEntries (env : Env) (pre : String)
    (es : List FSEntry) (p : String) (hp : p ∈ scanEntries env pre es) :
    isIgnored env.ignorePatterns p = false := by
  cases es with
  | nil => exact absurd hp (List.not_mem_nil p)
  | cons e es =>
    simp only [scanEntries, List.mem_append] at hp
    cases hp with
    | inl h => exact not_ignored_of_mem_scanEntry env pre e p h
    | inr h => exact not_ignored_of_mem_scanEntries env pre es p h
end

/-- Membership in an insertion into the descending sort. -/
theorem mem_insertDesc (a f : FileInfo) (l : List FileInfo) :
    a ∈ insertDesc f l ↔ a = f ∨ a ∈ l := by
  induction l with
  | nil => simp [insertDesc]
  | cons g gs ih =>
    rw [insertDesc]
    split
    · simp only [List.mem_cons, ih]
      tauto
    · simp only [List.mem_cons]

/-- The descending sort permutes its input, so membership is preserved. -/
theorem mem_sortByCountDesc (a : FileInfo) (l : List FileInfo) :
    a ∈ sortByCountDesc l ↔ a ∈ l := by
  induction l with
  | nil => simp [sortByCountDesc]
  | cons f fs ih => simp [sortByCountDesc, mem_insertDesc, ih]

/-- A record's membership in the snapshot's large files is exactly
membership among the scanned records with line count at or above the
resolved threshold. -/
theorem mem_largeFiles (env : Env) (root : List FSEntry) (f : FileInfo) :
    f ∈ (buildSnapshot env root).largeFiles ↔
      f ∈ filesWithCounts env root ∧
        getSummaryThreshold env.summaryThresholdConfig ≤ f.lineCount := by
  simp [buildSnapshot, mem_sortByCountDesc, List.mem_filter]

/-- Every scanned record's path is one of the scanned code file paths. -/
theorem path_mem_of_mem_filesWithCounts (env : Env) (root : List FSEntry)
    (f : FileInfo) (hf : f ∈ filesWithCounts env root) :
    f.path ∈ getAllCodeFiles env root := by
  simp only [filesWithCounts, List.mem_map] at hf
  obtain ⟨p, hp, rfl⟩ := hf
  exact hp

/-- C1: a path matching at least one deny pattern is excluded from the
workspace snapshot, whatever the allow patterns say and even when an
allow pattern also matches it, because the ignore check is applied
first in the scan loop and short-circuits the include check: the path
appears neither among the scanned code files nor in the snapshot's
large files. -/
theorem denied_path_excluded (env : Env) (root : List FSEntry) (p : String)
    (hden : isIgnored env.ignorePatterns p = true) :
    p ∉ getAllCodeFiles env root ∧
      ∀ f ∈ (buildSnapshot env root).largeFiles, f.path ≠ p := by
  have hmain : p ∉ getAllCodeFiles env root := by
    intro hmem
    have hfalse := not_ignored_of_mem_scanEntries env "" root p hmem
    rw [hden] at hfalse
    exact Bool.noConfusion hfalse
  refine ⟨hmain, fun f hf hfp => ?_⟩
  have h1 := ((mem_largeFiles env root f).mp hf).1
  have h2 := path_mem_of_mem_filesWithCounts env root f h1
  rw [hfp] at h2
  exact hmain h2

/-- Witness for C1: with deny pattern *.md and allow pattern README.md
both matching README.md, the denied path is excluded from the scan. -/
theorem denied_path_excluded_witness :
    isIgnored ["*.md"] "README.md" = true ∧
    isIncluded true ["README.md"] "README.md" = true ∧
    "README.md" ∉
      getAllCodeFiles ⟨["*.md"], ["README.md"], true, some 500⟩
        [FSEntry.file "README.md" (some "x")] :=
  ⟨by decide, by decide,
   (denied_path_excluded ⟨["*.md"], ["README.md"], true, some 500⟩
     [FSEntry.file "README.md" (some "x")] "README.md" (by decide)).1⟩

/-- C2: countLines yields 1 on empty content (one empty segment), and
on every input path its result is a non-negative count; the embedding
is a total function, mirroring the catch-all handler that keeps
countLines from ever throwing. -/
theorem countLines_spec (fs : String → Option String) (p : String) :
    (fs p = some "" → countLines fs p = 1) ∧ 0 ≤ countLines fs p := by
  refine ⟨fun h => ?_, Nat.zero_le _⟩
  simp only [countLines, h]
  decide

/-- Witness for C2 at a concrete filesystem mapping every path to empty
content. -/
theorem countLines_spec_witness :
    countLines (fun _ => some "") "a.ts" = 1 ∧
      0 ≤ countLines (fun _ => some "") "a.ts" :=
  ⟨(countLines_spec (fun _ => some "") "a.ts").1 rfl,
   (countLines_spec (fun _ => some "") "a.ts").2⟩

set_option maxRecDepth 80000 in
/-- C3: three eligible files of 10, 600 and 1200 lines under threshold
500 yield largeFiles = [the 1200-line file, the 600-line file] in
descending order and averageLines = round(1810 / 3) = 603. -/
theorem buildSnapshot_example :
    buildSnapshot exampleEnv exampleRoot =
      { totalFiles := 3, totalLines := 1810, averageLines := 603,
        largeFiles := [⟨"c.ts", "c.ts", 1200⟩, ⟨"b.ts", "b.ts", 600⟩] } := by
  decide

/-- C4: calling getWorkspaceStats again with no intervening refresh
returns exactly the snapshot the first call produced, leaves the state
unchanged, and performs zero file reads, so nothing is recomputed. -/
theorem getWorkspaceStats_cached (env : Env) (root : List FSEntry)
    (st : ProviderState) :
    getWorkspaceStats env root ((getWorkspaceStats env root st).2.1) =
      ((getWorkspaceStats env root st).1,
        (getWorkspaceStats env root st).2.1, 0) := by
  cases h : st.cachedStats with
  | some s => simp [getWorkspaceStats, h]
  | none => simp [getWorkspaceStats, h]

/-- C5: with the single deny pattern *.map, isIgnored accepts
foo.js.map and bar.map and rejects mapper.js. -/
theorem isIgnored_star_map :
    isIgnored ["*.map"] "foo.js.map" = true ∧
    isIgnored ["*.map"] "bar.map" = true ∧
    isIgnored ["*.map"] "mapper.js" = false := by
  decide

/-- Counterexample for C6 as stated: for a path whose read fails, the
first getLineCount call stores nothing in the cache, and the second
call for the same path performs another fs.readFileSync attempt (read
counter 1, not 0), so not every path is memoized after a first call. -/
theorem getLineCount_unreadable_not_memoized :
    (getLineCount (fun _ => none) [] "a.ts").2.1 = [] ∧
    (getLineCount (fun _ => none)
        ((getLineCount (fun _ => none) [] "a.ts").2.1) "a.ts").2.2 = 1 := by
  decide

/-- C6 amended: for every path whose read succeeds, after a first
getLineCount call every subsequent call for the same path returns the
stored count from the cache, leaves the cache unchanged and performs
zero reads. -/
theorem getLineCount_memoizes (fs : String → Option String)
    (cache : List (String × Nat)) (p c : String) (h : fs p = some c) :
    getLineCount fs ((getLineCount fs cache p).2.1) p =
      ((getLineCount fs cache p).1,
        (getLineCount fs cache p).2.1, 0) := by
  cases hl : cache.lookup p with
  | some n => simp [getLineCount, hl]
  | none => simp [getLineCount, hl, h, List.lookup]

/-- Witness for C6 amended at a readable concrete path. -/
theorem getLineCount_memoizes_witness :
    getLineCount (fun _ => some "x") ((getLineCount (fun _ => some "x") [] "a.ts").2.1) "a.ts" =
      ((getLineCount (fun _ => some "x") [] "a.ts").1,
        (getLineCount (fun _ => some "x") [] "a.ts").2.1, 0) :=
  getLineCount_memoizes (fun _ => some "x") [] "a.ts" "x" rfl

/-- C7: a record appears in the snapshot's largeFiles exactly when it
is among the scanned records and its lineCount meets or exceeds the
summary threshold resolved at snapshot-build time. -/
theorem largeFiles_iff (env : Env) (root : List FSEntry) (f : FileInfo) :
    f ∈ (buildSnapshot env root).largeFiles ↔
      f ∈ filesWithCounts env root ∧
        getSummaryThreshold env.summaryThresholdConfig ≤ f.lineCount :=
  mem_largeFiles env root f

set_option maxRecDepth 80000 in
/-- Witness for C7: the 1200-line record is large under threshold 500. -/
theorem largeFiles_iff_witness :
    (⟨"c.ts", "c.ts", 1200⟩ : FileInfo) ∈
      (buildSnapshot exampleEnv exampleRoot).largeFiles :=
  (largeFiles_iff exampleEnv exampleRoot ⟨"c.ts", "c.ts", 1200⟩).mpr
    ⟨by decide, by decide⟩

/-- C8: the failure paths are fail-open: an unreadable file counts as
zero lines; a missing or unreadable pattern file contributes no
patterns, and a list of only such files loads an empty pattern set;
every pattern that is loaded is a non-blank, non-comment line; and an
unreadable directory is skipped silently by the scan, contributing no
files. -/
theorem fail_open_spec :
    (∀ fs p, fs p = none → countLines fs p = 0) ∧
    parsePatternFile none = [] ∧
    (∀ files, (∀ f ∈ files, f = none) → loadPatternFiles files = []) ∧
    (∀ c l, l ∈ parsePatternFile (some c) →
      (l == "") = false ∧ strStartsWith l "#" = false) ∧
    (∀ env pre name entries,
      scanEntry env pre (FSEntry.dir name false entries) = []) := by
  refine ⟨fun fs p h => ?_, rfl, fun files h => ?_, fun c l hl => ?_,
    fun env pre name entries => ?_⟩
  · simp [countLines, h]
  · induction files with
    | nil => rfl
    | cons f fs ih =>
      have hf := h f (List.mem_cons_self f fs)
      subst hf
      have hrest := ih (fun g hg => h g (List.mem_cons_of_mem _ hg))
      simpa [loadPatternFiles, parsePatternFile] using hrest
  · rw [parsePatternFile, List.mem_filter] at hl
    have hpred := hl.2
    simp only [Bool.and_eq_true, Bool.not_eq_true'] at hpred
    exact hpred
  · simp [scanEntry]

/-- Witness for C8 at concrete failing inputs: an unreadable file, two
unreadable pattern files, a comment-and-blank pattern file keeping only
the word foo, and an unreadable directory holding a code file. -/
theorem fail_open_spec_witness :
    countLines (fun _ => none) "a.ts" = 0 ∧
    loadPatternFiles [none, none] = [] ∧
    (("foo" == "") = false ∧ strStartsWith "foo" "#" = false) ∧
    scanEntry ⟨[], [], false, none⟩ ""
      (FSEntry.dir "d" false [FSEntry.file "a.ts" (some "x")]) = [] :=
  ⟨fail_open_spec.1 (fun _ => none) "a.ts" rfl,
   fail_open_spec.2.2.1 [none, none] (by simp),
   fail_open_spec.2.2.2.1 "# c\n\nfoo" "foo" (by decide),
   fail_open_spec.2.2.2.2 ⟨[], [], false, none⟩ "" "d"
     [FSEntry.file "a.ts" (some "x")]⟩

/-- C9: formatBadge produces the decimal string below 100, hundreds
with an H suffix up to 999, thousands with a K suffix up to 99999, and
millions with an M suffix from 100000 on, so every count from 100000 to
999999 collapses to the badge 0M. -/
theorem formatBadge_spec (n : Nat) :
    (n < 100 → formatBadge n = toString n) ∧
    (100 ≤ n → n < 1000 → formatBadge n = toString (n / 100) ++ "H") ∧
    (1000 ≤ n → n < 100000 → formatBadge n = toString (n / 1000) ++ "K") ∧
    (100000 ≤ n → formatBadge n = toString (n / 1000000) ++ "M") ∧
    (100000 ≤ n → n ≤ 999999 → formatBadge n = "0M") := by
  unfold formatBadge
  refine ⟨fun h => ?_, fun h1 h2 => ?_, fun h1 h2 => ?_, fun h => ?_,
    fun h1 h2 => ?_⟩
  · rw [if_pos h]
  · rw [if_neg (by omega), if_pos h2]
  · by_cases h3 : n < 10000
    · rw [if_neg (by omega), if_neg (by omega), if_pos h3]
    · rw [if_neg (by omega), if_neg (by omega), if_neg h3, if_pos h2]
  · rw [if_neg (by omega), if_neg (by omega), if_neg (by omega),
      if_neg (by omega)]
  · rw [if_neg (by omega), if_neg (by omega), if_neg (by omega),
      if_neg (by omega), Nat.div_eq_of_lt (by omega)]
    decide

/-- Witness for C9 in every branch, including the 0M collapse. -/
theorem formatBadge_spec_witness :
    formatBadge 42 = "42" ∧ formatBadge 250 = "2H" ∧
    formatBadge 2500 = "2K" ∧ formatBadge 42000 = "42K" ∧
    formatBadge 250000 = "0M" :=
  ⟨((formatBadge_spec 42).1 (by decide)).trans (by decide),
   ((formatBadge_spec 250).2.1 (by decide) (by decide)).trans (by decide),
   ((formatBadge_spec 2500).2.2.1 (by decide) (by decide)).trans (by decide),
   ((formatBadge_spec 42000).2.2.1 (by decide) (by decide)).trans (by decide),
   (formatBadge_spec 250000).2.2.2.2 (by decide) (by decide)⟩

/-- C10: when the scan finds no eligible files, the snapshot has zero
totals, zero average and no large files; the zero-count guard takes its
else branch, so the average is 0 without any division being taken. -/
theorem emptyScan_snapshot (env : Env) (root : List FSEntry)
    (h : getAllCodeFiles env root = []) :
    buildSnapshot env root =
      { totalFiles := 0, totalLines := 0, averageLines := 0,
        largeFiles := [] } := by
  simp [buildSnapshot, filesWithCounts, h, sortByCountDesc]

/-- Witness for C10: a workspace whose only directory is unreadable
scans to nothing and yields the all-zero snapshot. -/
theorem emptyScan_snapshot_witness :
    buildSnapshot ⟨["secret"], [], false, none⟩
        [FSEntry.dir "secret" false [FSEntry.file "a.ts" (some "x")]] =
      { totalFiles := 0, totalLines := 0, averageLines := 0,
        largeFiles := [] } :=
  emptyScan_snapshot ⟨["secret"], [], false, none⟩
    [FSEntry.dir "secret" false [FSEntry.file "a.ts" (some "x")]] (by decide)

end FileLineCounter
